import Mathlib

/-!
Verification of the MagShield data-pipeline export engine.

This file gives a shallow embedding, in Lean 4, of the core of the
`magshield_data_pipeline` repository: the resilient fetch client
(`safe_get`), the pager (`fetch_all_paged`), the lookup-table builders
(`build_lookups`, the task-export caches), the opportunity row builder
(`base_row` and the fan-out loop of `main_opportunity`), the invoice
deduplication, the date formatters (`format_date_only`,
`format_date_ui`) and the empty-input short-circuits of the export
entry points.  Network effects are modelled by explicit scripts
(functions from attempt/page index to an outcome), `time.sleep` by an
accumulated list of delays, and Python scalars by the `PyVal` type.
-/

namespace MagShield

/-- A Python scalar value as it arrives from the JSON API: `None`, a
bool, an integer, or a string.  Identifier fields on the wire may be
numbers or strings, which is exactly what the lookup-key claims are
about. -/
inductive PyVal where
  | none : PyVal
  | bool : Bool → PyVal
  | int : Int → PyVal
  | str : String → PyVal
deriving DecidableEq, Repr

/-- Python `str(v)` on a scalar. -/
def pyStr : PyVal → String
  | PyVal.none => "None"
  | PyVal.bool true => "True"
  | PyVal.bool false => "False"
  | PyVal.int n => toString n
  | PyVal.str s => s

/-- Python truthiness of a scalar (`bool(v)`). -/
def pyTruthy : PyVal → Bool
  | PyVal.none => false
  | PyVal.bool b => b
  | PyVal.int n => n != 0
  | PyVal.str s => s != ""

/-- Python `str(v or "")`: the pattern `str(opp.get(F) or "")` used
throughout `main_opportunity` to build lookup keys. -/
def pyStrOrBlank (v : PyVal) : String :=
  if pyTruthy v then pyStr v else ""

/-- A Python dict, as built by a comprehension, modelled as the list of
key/value insertions in order; a later binding for the same key
overwrites an earlier one.  `pyGet?` models `d.get(k)` (absent ↦
`None`). -/
def pyGet? [BEq α] (m : List (α × β)) (k : α) : Option β :=
  (m.reverse.find? (fun p => p.1 == k)).map (fun p => p.2)

/-- Python `d.get(k, default)`. -/
def pyGetD [BEq α] (m : List (α × β)) (k : α) (d : β) : β :=
  (pyGet? m k).getD d

/-- Python `k in d`. -/
def pyMem [BEq α] (m : List (α × β)) (k : α) : Bool :=
  (pyGet? m k).isSome

-- ==============================
--  Resilient fetch client (modules/opportunity.py, safe_get)
-- ==============================

/-- Outcome of one HTTP request attempt: a well-formed 2xx response, a
retryable network error (`ChunkedEncodingError`, `ConnectionError`,
`Timeout`), or a well-formed HTTP 4xx/5xx error response (raised as
`requests.HTTPError` by `raise_for_status`). -/
inductive ReqOutcome where
  | ok : ReqOutcome
  | netErr : ReqOutcome
  | httpErr : ReqOutcome
deriving DecidableEq, Repr

/-- Trace of one `safe_get` call: number of request attempts actually
made, the list of enforced `time.sleep` delays in seconds (in order),
and the result (`some ()` for a returned response, `none` for the
Python `None` the function degrades to). -/
structure FetchTrace where
  attempts : Nat
  sleeps : List Nat
  result : Option Unit
deriving DecidableEq, Repr

/-- The retry loop of `safe_get` (modules/opportunity.py lines 51-69).
`script a` is the outcome of attempt number `a` (0-indexed);
`remaining` is how many iterations of `for attempt in
range(max_retries)` are still to run, so the current attempt index is
`attempt`.  On a network error the code sleeps `backoff ** attempt =
2^attempt` seconds unless this was the last allowed attempt, in which
case it returns `None`; on an HTTP error it returns `None` at once. -/
def safeGetAux (script : Nat → ReqOutcome) : Nat → Nat → FetchTrace
  | _, 0 => ⟨0, [], Option.none⟩
  | attempt, remaining + 1 =>
    match script attempt with
    | ReqOutcome.ok => ⟨1, [], some ()⟩
    | ReqOutcome.httpErr => ⟨1, [], Option.none⟩
    | ReqOutcome.netErr =>
      if remaining = 0 then ⟨1, [], Option.none⟩
      else
        let rest := safeGetAux script (attempt + 1) remaining
        ⟨rest.attempts + 1, 2 ^ attempt :: rest.sleeps, rest.result⟩

/-- `safe_get(url, params, max_retries=5)` from modules/opportunity.py,
abstracted over the script of per-attempt outcomes. -/
def safe_get (script : Nat → ReqOutcome) (maxRetries : Nat := 5) : FetchTrace :=
  safeGetAux script 0 maxRetries

/-- The `safe_get` variant of src/test.py (lines 48-60): it catches
`Exception` — so HTTP error responses are retried exactly like network
errors — and returns `None` only once the final attempt has failed. -/
def testSafeGetAux (script : Nat → ReqOutcome) : Nat → Nat → FetchTrace
  | _, 0 => ⟨0, [], Option.none⟩
  | attempt, remaining + 1 =>
    match script attempt with
    | ReqOutcome.ok => ⟨1, [], some ()⟩
    | _ =>
      if remaining = 0 then ⟨1, [], Option.none⟩
      else
        let rest := testSafeGetAux script (attempt + 1) remaining
        ⟨rest.attempts + 1, 2 ^ attempt :: rest.sleeps, rest.result⟩

/-- `safe_get(url, params, max_retries=4)` from src/test.py. -/
def test_safe_get (script : Nat → ReqOutcome) (maxRetries : Nat := 4) : FetchTrace :=
  testSafeGetAux script 0 maxRetries

-- ==============================
--  Pager (modules/opportunity.py, fetch_all_paged)
-- ==============================

/-- `total_pages = (total_count // top) + (1 if total_count % top != 0
else 0)` (line 86). -/
def pageCount (totalCount top : Nat) : Nat :=
  totalCount / top + (if totalCount % top ≠ 0 then 1 else 0)

/-- Result of one `fetch_all_paged` call: the `skip` values of the page
requests issued, and the merged record list. -/
structure PagerResult (α : Type) where
  requests : List Nat
  records : List α
deriving DecidableEq, Repr

/-- `fetch_all_paged(endpoint, top=500)` (modules/opportunity.py lines
74-105).  `probe` is the result of the count probe: `Option.none` if
that `safe_get` failed, otherwise the `X-Total-Count` header value.
`pages i` is the payload of the page fetch with `skip = i * top`
(`Option.none` when its `safe_get` failed, in which case `fetch_page`
yields `[]` and `records.extend` adds nothing).  The concurrent
`as_completed` merge is embedded in page-index order; completion order
only permutes the merged list and no claim here depends on it. -/
def fetch_all_paged (probe : Option Nat) (pages : Nat → Option (List α))
    (top : Nat := 500) : PagerResult α :=
  match probe with
  | Option.none => ⟨[], []⟩
  | some totalCount =>
    if totalCount = 0 then ⟨[], []⟩
    else
      ⟨(List.range (pageCount totalCount top)).map (fun i => i * top),
       ((List.range (pageCount totalCount top)).map
         (fun i => (pages i).getD [])).flatten⟩

-- ==============================
--  Python string helpers used by the row builders
-- ==============================

/-- Python `s.split(sep)` for a single-character separator, on the
character list: `"".split(";") == [""]`, and every occurrence of the
separator starts a new segment. -/
def splitCharAux (sep : Char) : List Char → List (List Char)
  | [] => [[]]
  | c :: cs =>
    if c = sep then [] :: splitCharAux sep cs
    else
      match splitCharAux sep cs with
      | [] => [[c]]
      | h :: t => (c :: h) :: t

/-- Python `s.split(sep)` (single-character separator). -/
def pySplit (s : String) (sep : Char) : List String :=
  (splitCharAux sep s.toList).map (fun l => String.mk l)

/-- Python `s.strip()` on the character list (leading and trailing
whitespace removed; the exact whitespace set is immaterial to every
claim below). -/
def stripChars (l : List Char) : List Char :=
  ((l.dropWhile Char.isWhitespace).reverse.dropWhile Char.isWhitespace).reverse

/-- Python `s.strip()`. -/
def pyStrip (s : String) : String :=
  String.mk (stripChars s.toList)

-- ==============================
--  Lookup builders (modules/opportunity.py, build_lookups)
-- ==============================

/-- An Organisations record: `ORGANISATION_ID` (arbitrary wire scalar)
and `ORGANISATION_NAME` (`o.get("ORGANISATION_NAME", "")`, a wire
string). -/
structure OrgRec where
  orgId : PyVal
  name : String
deriving DecidableEq, Repr

/-- `orgs = { str(o["ORGANISATION_ID"]): o.get("ORGANISATION_NAME", "")
… }` (lines 132-135). -/
def orgsLookup (rs : List OrgRec) : List (String × String) :=
  rs.map (fun o => (pyStr o.orgId, o.name))

/-- A Users record: `USER_ID`, `FIRST_NAME`, `LAST_NAME` (the names
default to `""` via `.get(…, "")` and are stringified by the
f-string). -/
structure UserRec where
  userId : PyVal
  firstName : PyVal
  lastName : PyVal
deriving DecidableEq, Repr

/-- `users = { str(u["USER_ID"]):
f'{u.get("USER_ID")};{u.get("FIRST_NAME", "")} {u.get("LAST_NAME", "")}'
… }` (lines 137-141).  Every value embeds the `;` separator. -/
def usersLookup (rs : List UserRec) : List (String × String) :=
  rs.map (fun u => (pyStr u.userId,
    pyStr u.userId ++ ";" ++ pyStr u.firstName ++ " " ++ pyStr u.lastName))

/-- The probe `organisations.get(str(opp.get(F) or ""), "")` used for
`org_id` / `entity_org_id` / `channel_partner_id` in the main loop
(lines 335-337 with line 388 etc.). -/
def orgProbe (rs : List OrgRec) (v : PyVal) : String :=
  pyGetD (orgsLookup rs) (pyStrOrBlank v) ""

/-- The probe `users.get(str(opp.get("OWNER_USER_ID") or ""), "")`
(line 339 with line 407). -/
def userProbe (rs : List UserRec) (v : PyVal) : String :=
  pyGetD (usersLookup rs) (pyStrOrBlank v) ""

/-- The `Owner Name` computation of `base_row` (lines 412-414):
`users.get(owner_id, "").split(";")[1] if users.get(owner_id) else ""`.
The `[1]` index access is modelled as an `Option` (`Option.none` is the
`IndexError` Python would raise). -/
def ownerName? (users : List (String × String)) (ownerId : String) : Option String :=
  if pyTruthy (PyVal.str (pyGetD users ownerId "")) then
    (pySplit (pyGetD users ownerId "") ';')[1]?
  else some ""

-- ==============================
--  Task-export category cache (modules/task.py)
-- ==============================

/-- `fetch_category(cid)` (modules/task.py lines 88-92): unlike every
other cache in task.py, the key is the RAW `cid` — there is no
`str(…)` normalization — so a numeric id and its string representation
are distinct keys.  `categoryName` stands for the fetched
`CATEGORY_NAME`. -/
def fetch_category (categoryName : String) (cache : List (PyVal × String))
    (cid : PyVal) : List (PyVal × String) :=
  if pyTruthy cid && !(pyMem cache cid) then cache ++ [(cid, categoryName)] else cache

/-- The probe `category_cache.get(t.get("CATEGORY_ID"), "")` from the
task row builder (modules/task.py line 251) — again the raw id. -/
def categoryProbe (cache : List (PyVal × String)) (cid : PyVal) : String :=
  pyGetD cache cid ""

-- ==============================
--  Invoice matching and deduplication (modules/opportunity.py)
-- ==============================

/-- One matched invoice reference: the `Invoice_Num__c` and
`PO_Number__c` custom-field values (lines 291-294). -/
structure InvRow where
  invoiceNum : PyVal
  poNum : PyVal
deriving DecidableEq, Repr

/-- Invoice matching by SKU (lines 364-368): for each SKU of the
opportunity, `str(sku).strip()` and extend with the lookup bucket when
present. -/
def collectInvoices (invoiceLookup : List (String × List InvRow))
    (skus : List String) : List InvRow :=
  (skus.map (fun sku =>
    let sk := pyStrip sku
    if pyMem invoiceLookup sk then pyGetD invoiceLookup sk [] else [])).flatten

/-- The dedup loop of lines 370-379: drop an invoice whose
`(Invoice_Num__c, PO_Number__c)` pair was already seen, keeping first
occurrences in order. -/
def dedupByPair (seen : List (PyVal × PyVal)) : List InvRow → List InvRow
  | [] => []
  | inv :: rest =>
    if (inv.invoiceNum, inv.poNum) ∈ seen then dedupByPair seen rest
    else inv :: dedupByPair ((inv.invoiceNum, inv.poNum) :: seen) rest

/-- `unique_invoices` as computed before row building. -/
def unique_invoices (invs : List InvRow) : List InvRow :=
  dedupByPair [] invs

-- ==============================
--  Date parsing and formatting (strptime / strftime)
-- ==============================

/-- Numeric value of a run of decimal digit characters, as the regex
groups of CPython `_strptime` produce it. -/
def digitsVal (ds : List Char) : Nat :=
  ds.foldl (fun acc c => acc * 10 + (c.toNat - 48)) 0

/-- One numeric field of a `strptime` format: consume the maximal
digit run, require its length in `[minLen, maxLen]` and its value in
`[lo, hi]` (this matches CPython's per-directive regexes — e.g. `%m`
is `1[0-2]|0[1-9]|[1-9]` — because every field here is followed by a
non-digit delimiter or the end of input). -/
def parseNumField (cs : List Char) (minLen maxLen lo hi : Nat) :
    Option (Nat × List Char) :=
  if minLen ≤ (cs.takeWhile Char.isDigit).length
      ∧ (cs.takeWhile Char.isDigit).length ≤ maxLen
      ∧ lo ≤ digitsVal (cs.takeWhile Char.isDigit)
      ∧ digitsVal (cs.takeWhile Char.isDigit) ≤ hi
  then some (digitsVal (cs.takeWhile Char.isDigit), cs.dropWhile Char.isDigit)
  else Option.none

/-- Consume one literal delimiter character of the format string. -/
def expectChar (cs : List Char) (c : Char) : Option (List Char) :=
  match cs with
  | x :: rest => if x = c then some rest else Option.none
  | [] => Option.none

/-- Gregorian leap year, as `datetime` checks it. -/
def isLeapYear (y : Nat) : Bool :=
  (y % 4 == 0 && y % 100 != 0) || (y % 400 == 0)

/-- Days in a month, as the `datetime` constructor validates the day. -/
def daysInMonth (y m : Nat) : Nat :=
  if m = 2 then (if isLeapYear y then 29 else 28)
  else if m = 4 ∨ m = 6 ∨ m = 9 ∨ m = 11 then 30
  else 31

/-- `datetime.strptime(s, "%Y-%m-%d %H:%M:%S")`, reduced to the
`(year, month, day)` it yields (the time fields are validated and
discarded, since every formatter below only renders the date).
`Option.none` is the `ValueError` Python raises: on a leftover suffix
("unconverted data remains"), a malformed or out-of-range field, or an
invalid calendar day. -/
def strptimeDateTime (s : String) : Option (Nat × Nat × Nat) := do
  let (y, r1) ← parseNumField s.toList 4 4 1 9999
  let r2 ← expectChar r1 '-'
  let (m, r3) ← parseNumField r2 1 2 1 12
  let r4 ← expectChar r3 '-'
  let (d, r5) ← parseNumField r4 1 2 1 31
  let r6 ← expectChar r5 ' '
  let (_hh, r7) ← parseNumField r6 1 2 0 23
  let r8 ← expectChar r7 ':'
  let (_mi, r9) ← parseNumField r8 1 2 0 59
  let r10 ← expectChar r9 ':'
  let (_ss, r11) ← parseNumField r10 1 2 0 59
  if r11 = [] ∧ d ≤ daysInMonth y m then some (y, m, d) else Option.none

/-- `datetime.strptime(s, "%Y-%m-%d")` (the invoice formatter parses
only the date part). -/
def strptimeDate (s : String) : Option (Nat × Nat × Nat) := do
  let (y, r1) ← parseNumField s.toList 4 4 1 9999
  let r2 ← expectChar r1 '-'
  let (m, r3) ← parseNumField r2 1 2 1 12
  let r4 ← expectChar r3 '-'
  let (d, r5) ← parseNumField r4 1 2 1 31
  if r5 = [] ∧ d ≤ daysInMonth y m then some (y, m, d) else Option.none

/-- `strftime`'s zero-padded two-digit field (`%m`, `%d`). -/
def pad2 (n : Nat) : String :=
  if n < 10 then "0" ++ toString n else toString n

/-- `format_date_only` (modules/organisation.py lines 108-116 and
modules/task.py lines 191-199): empty input yields `""`; a string in
the strict format `YYYY-MM-DD HH:MM:SS` is rendered `MM/DD/YYYY`
(`strftime("%m/%d/%Y")`; the year prints unpadded as glibc does, which
is indistinguishable for the four-digit years `strptime` accepts
here); anything else — `ValueError` — is returned unchanged. -/
def format_date_only (s : String) : String :=
  if s = "" then ""
  else
    match strptimeDateTime s with
    | some (y, m, d) => pad2 m ++ "/" ++ pad2 d ++ "/" ++ toString y
    | Option.none => s

/-- `format_date_ui` (modules/invoice.py lines 137-145): empty input
yields `""`; otherwise the part before the first space is parsed as
`YYYY-MM-DD` and rendered `DD/MM/YYYY`; any exception returns the
input unchanged. -/
def format_date_ui (s : String) : String :=
  if s = "" then ""
  else
    match strptimeDate ((pySplit s ' ').headD "") with
    | some (y, m, d) => pad2 d ++ "/" ++ pad2 m ++ "/" ++ toString y
    | Option.none => s

/-- The decimal digit character for `n ≤ 9`. -/
def digitChar (n : Nat) : Char :=
  Char.ofNat (48 + n)

/-- A two-digit zero-padded rendering, at the character level. -/
def pad2chars (n : Nat) : List Char :=
  [digitChar (n / 10), digitChar (n % 10)]

/-- A four-digit zero-padded rendering, at the character level. -/
def pad4chars (n : Nat) : List Char :=
  [digitChar (n / 1000), digitChar (n / 100 % 10), digitChar (n / 10 % 10),
   digitChar (n % 10)]

/-- A well-formed source date-time string `YYYY-MM-DD HH:MM:SS`, used
to state the round-trip theorem for the formatters. -/
def renderDateTime (y m d hh mi ss : Nat) : String :=
  String.mk (pad4chars y ++ '-' :: (pad2chars m ++ '-' :: (pad2chars d ++
    ' ' :: (pad2chars hh ++ ':' :: (pad2chars mi ++ ':' :: pad2chars ss)))))

-- ==============================
--  Opportunity export rows (modules/opportunity.py, main_opportunity)
-- ==============================

/-- Python text cleaning (`clean_text`, line 271-272, string case):
carriage returns and newlines become spaces, then strip. -/
def cleanText (s : String) : String :=
  pyStrip (String.mk (s.toList.map
    (fun c => if c = '\r' ∨ c = '\n' then ' ' else c)))

/-- `clean_text(v)`: non-strings pass through unchanged. -/
def cleanTextPy : PyVal → PyVal
  | PyVal.str s => PyVal.str (cleanText s)
  | v => v

/-- Python `s.upper()` (ASCII suffices for `"TRUE"/"FALSE"`). -/
def pyUpper (s : String) : String :=
  String.mk (s.toList.map Char.toUpper)

/-- An Opportunities record: the raw field dict plus the custom-field
bag already flattened to a name→value dict (line 334). -/
structure OppRec where
  fields : List (String × PyVal)
  customFields : List (String × PyVal)
deriving DecidableEq, Repr

/-- `opp.get(k)` (default `None`). -/
def oget (opp : OppRec) (k : String) : PyVal :=
  (pyGet? opp.fields k).getD PyVal.none

/-- `opp.get(k, d)`. -/
def ogetD (opp : OppRec) (k : String) (d : PyVal) : PyVal :=
  (pyGet? opp.fields k).getD d

/-- `cf.get(k)` (default `None`). -/
def cfGetNone (cf : List (String × PyVal)) (k : String) : PyVal :=
  (pyGet? cf k).getD PyVal.none

/-- The lookup tables built by `build_lookups` as they reach the main
loop (each a string-keyed dict of display strings). -/
structure Lookups where
  organisations : List (String × String)
  users : List (String × String)
  pricebooks : List (String × String)
  productsFamily : List (String × String)
  stateReasonMap : List (String × String)
  stageNameMap : List (String × String)
deriving Repr

/-- The site name of lines 344-349: every linked organisation except
the record's own, resolved through the organisations table, kept only
when the resolved name is truthy, joined with `" and "`. -/
def siteNameFor (organisations : List (String × String))
    (siteLinks : List (String × List String)) (oppIdStr orgId : String) : String :=
  let linked := pyGetD siteLinks oppIdStr []
  let siteOrgIds := linked.filter (fun oid => oid ≠ orgId)
  let siteNames := siteOrgIds.filterMap (fun oid =>
    match pyGet? organisations oid with
    | some nm => if nm ≠ "" then some nm else Option.none
    | Option.none => Option.none)
  String.intercalate " and " siteNames

/-- One export row of the opportunity domain, one field per output
column of `base_row` (lines 384-420), in source order.  Fields that
the code always produces as strings are `String`; fields copied
verbatim from the record or the custom-field bag are `PyVal`.
`ownerName` keeps the `Option` of the modelled `split(";")[1]` access
(see `ownerName?`). -/
structure OppRow where
  opportunityId : String
  opportunityName : PyVal
  entityOwningEquipment : String
  siteName : String
  channelPartner : String
  dateCreated : PyVal
  dateClosedForecast : PyVal
  dateClosedActual : PyVal
  opportunityValue : PyVal
  bidCurrency : PyVal
  opportunityState : PyVal
  currentPipelineStage : String
  expectedRevenue : PyVal
  dateLastActivity : PyVal
  dateNextActivity : PyVal
  probability : PyVal
  stateReason : String
  won : String
  trialFlag : String
  productQuantity : PyVal
  pricebookName : String
  opportunityOwner : String
  productFamily : String
  archivedProductType : PyVal
  productId : String
  organizationName : String
  ownerName : Option String
  channelType : PyVal
  gapStrategy : PyVal
  gapCurrentState : PyVal
  invoiceNumber : PyVal
  purchaseOrder : PyVal
deriving DecidableEq, Repr

/-- `base_row(pid, invoice_num, po_number)` (lines 384-420), with the
per-record values of lines 335-356 computed in place (the code
computes them just above the closure; the result is identical). -/
def base_row (lk : Lookups) (siteLinks : List (String × List String))
    (opp : OppRec) (pid : String) (invoiceNum poNumber : PyVal) : OppRow :=
  let cf := opp.customFields
  let orgId := pyStrOrBlank (oget opp "ORGANISATION_ID")
  let entityOrgId := pyStrOrBlank (cfGetNone cf "Entity_Owning_Equipment__c")
  let channelPartnerId := pyStrOrBlank (cfGetNone cf "Channel_Owner__c")
  let pricebookId := pyStrOrBlank (oget opp "PRICEBOOK_ID")
  let ownerId := pyStrOrBlank (oget opp "OWNER_USER_ID")
  let stageId := pyStrOrBlank (oget opp "STAGE_ID")
  let oppIdStr := pyStr (oget opp "OPPORTUNITY_ID")
  { opportunityId := oppIdStr
    opportunityName := cleanTextPy (ogetD opp "OPPORTUNITY_NAME" (PyVal.str ""))
    entityOwningEquipment := cleanText (pyGetD lk.organisations entityOrgId "")
    siteName := cleanText (siteNameFor lk.organisations siteLinks oppIdStr orgId)
    channelPartner := cleanText (pyGetD lk.organisations channelPartnerId "")
    dateCreated := oget opp "DATE_CREATED_UTC"
    dateClosedForecast := oget opp "FORECAST_CLOSE_DATE"
    dateClosedActual := oget opp "ACTUAL_CLOSE_DATE"
    opportunityValue := oget opp "OPPORTUNITY_VALUE"
    bidCurrency := oget opp "BID_CURRENCY"
    opportunityState := oget opp "OPPORTUNITY_STATE"
    currentPipelineStage := cleanText (pyGetD lk.stageNameMap stageId "")
    expectedRevenue := oget opp "OPPORTUNITY_VALUE"
    dateLastActivity := oget opp "LAST_ACTIVITY_DATE_UTC"
    dateNextActivity := oget opp "NEXT_ACTIVITY_DATE_UTC"
    probability := oget opp "PROBABILITY"
    stateReason := cleanText
      (pyGetD lk.stateReasonMap (pyStrOrBlank (oget opp "STATE_REASON_ID")) "")
    won := if oget opp "OPPORTUNITY_STATE" = PyVal.str "WON" then "TRUE" else "FALSE"
    trialFlag := pyUpper (pyStr (pyGetD cf "Trial__c" (PyVal.bool false)))
    productQuantity := pyGetD cf "Quantity__c" (PyVal.str "")
    pricebookName := cleanText (pyGetD lk.pricebooks pricebookId "")
    opportunityOwner := cleanText (pyGetD lk.users ownerId "")
    productFamily := if pid ≠ "" then cleanText (pyGetD lk.productsFamily pid "") else ""
    archivedProductType := cleanTextPy (pyGetD cf "Product_Type__c" (PyVal.str ""))
    productId := pid
    organizationName := cleanText (pyGetD lk.organisations orgId "")
    ownerName := (ownerName? lk.users ownerId).map cleanText
    channelType := cleanTextPy (pyGetD cf "Channel_Type__c" (PyVal.str ""))
    gapStrategy := cleanTextPy (pyGetD cf "GAP_Strategy__c" (PyVal.str ""))
    gapCurrentState := cleanTextPy (pyGetD cf "Current_State__c" (PyVal.str ""))
    invoiceNumber := cleanTextPy invoiceNum
    purchaseOrder := cleanTextPy poNumber }

/-- The non-sub-entity columns of an `OppRow`: every column except the
product-derived ones (`Product ID`, `Product Family`) and the
invoice-derived ones (`Invoice Number`, `Purchase Order`). -/
structure OppCore where
  opportunityId : String
  opportunityName : PyVal
  entityOwningEquipment : String
  siteName : String
  channelPartner : String
  dateCreated : PyVal
  dateClosedForecast : PyVal
  dateClosedActual : PyVal
  opportunityValue : PyVal
  bidCurrency : PyVal
  opportunityState : PyVal
  currentPipelineStage : String
  expectedRevenue : PyVal
  dateLastActivity : PyVal
  dateNextActivity : PyVal
  probability : PyVal
  stateReason : String
  won : String
  trialFlag : String
  productQuantity : PyVal
  pricebookName : String
  opportunityOwner : String
  archivedProductType : PyVal
  organizationName : String
  ownerName : Option String
  channelType : PyVal
  gapStrategy : PyVal
  gapCurrentState : PyVal
deriving DecidableEq, Repr

/-- Projection of a row to its non-sub-entity columns. -/
def coreOf (r : OppRow) : OppCore :=
  { opportunityId := r.opportunityId
    opportunityName := r.opportunityName
    entityOwningEquipment := r.entityOwningEquipment
    siteName := r.siteName
    channelPartner := r.channelPartner
    dateCreated := r.dateCreated
    dateClosedForecast := r.dateClosedForecast
    dateClosedActual := r.dateClosedActual
    opportunityValue := r.opportunityValue
    bidCurrency := r.bidCurrency
    opportunityState := r.opportunityState
    currentPipelineStage := r.currentPipelineStage
    expectedRevenue := r.expectedRevenue
    dateLastActivity := r.dateLastActivity
    dateNextActivity := r.dateNextActivity
    probability := r.probability
    stateReason := r.stateReason
    won := r.won
    trialFlag := r.trialFlag
    productQuantity := r.productQuantity
    pricebookName := r.pricebookName
    opportunityOwner := r.opportunityOwner
    archivedProductType := r.archivedProductType
    organizationName := r.organizationName
    ownerName := r.ownerName
    channelType := r.channelType
    gapStrategy := r.gapStrategy
    gapCurrentState := r.gapCurrentState }

/-- The fan-out loop of lines 425-441: with a non-empty invoice list,
one row per (invoice, product) combination (per invoice alone if the
record has no products); with no invoices, one row per product, or a
single all-blank row.  `br` is `base_row` for the current record. -/
def buildRows (br : String → PyVal → PyVal → OppRow) (productIds : List String)
    (invoiceList : List InvRow) : List OppRow :=
  if invoiceList ≠ [] then
    (invoiceList.map (fun inv =>
      if productIds ≠ [] then
        productIds.map (fun pid => br pid inv.invoiceNum inv.poNum)
      else
        [br "" inv.invoiceNum inv.poNum])).flatten
  else if productIds ≠ [] then
    productIds.map (fun pid => br pid (PyVal.str "") (PyVal.str ""))
  else
    [br "" (PyVal.str "") (PyVal.str "")]

/-- The per-record body of the main loop (lines 333-441): resolve the
record's product ids, SKUs, matched-and-deduplicated invoices, and fan
out. -/
def rowsForOpp (lk : Lookups) (siteLinks : List (String × List String))
    (oppProductIdsMap oppProductSkusMap : List (String × List String))
    (invoiceLookup : List (String × List InvRow)) (opp : OppRec) : List OppRow :=
  let oppIdStr := pyStr (oget opp "OPPORTUNITY_ID")
  let productIds := pyGetD oppProductIdsMap oppIdStr []
  let productSkus := pyGetD oppProductSkusMap oppIdStr []
  let invoiceList := unique_invoices (collectInvoices invoiceLookup productSkus)
  buildRows (base_row lk siteLinks opp) productIds invoiceList

/-- `pandas.DataFrame.drop_duplicates()` on exact row equality,
keeping first occurrences in order. -/
def dropDupAux [DecidableEq α] (seen : List α) : List α → List α
  | [] => []
  | x :: rest =>
    if x ∈ seen then dropDupAux seen rest
    else x :: dropDupAux (x :: seen) rest

/-- `df.drop_duplicates()`. -/
def drop_duplicates [DecidableEq α] (l : List α) : List α :=
  dropDupAux [] l

/-- `main_opportunity()` (lines 304-461), from the point where all
collections have been fetched: the empty-primary short-circuit of
lines 327-329, the row-building loop, and the export step of lines
449-461.  The first component is the returned file path (`None` =
absent); the second is the argument handed to the file-write
collaborator (`to_excel`), `Option.none` when the writer is never
invoked. -/
def main_opportunity (lk : Lookups) (siteLinks : List (String × List String))
    (oppProductIdsMap oppProductSkusMap : List (String × List String))
    (invoiceLookup : List (String × List InvRow))
    (opportunities : List OppRec) : Option String × Option (List OppRow) :=
  if opportunities = [] then (Option.none, Option.none)
  else
    let rows := (opportunities.map
      (rowsForOpp lk siteLinks oppProductIdsMap oppProductSkusMap invoiceLookup)).flatten
    if rows ≠ [] then
      (some "/tmp/Opportunities BPR.xlsx", some (drop_duplicates rows))
    else
      (Option.none, Option.none)

-- ==============================
--  Task export (modules/task.py, main_task)
-- ==============================

/-- One entry of a task's `LINKS` list. -/
structure TaskLink where
  objName : PyVal
  objId : PyVal
deriving DecidableEq, Repr

/-- A Tasks record: raw field dict plus its `LINKS`
(`t.get("LINKS", [])`). -/
structure TaskRec where
  fields : List (String × PyVal)
  links : List TaskLink
deriving DecidableEq, Repr

/-- `t.get(k)` (default `None`). -/
def tget (t : TaskRec) (k : String) : PyVal :=
  (pyGet? t.fields k).getD PyVal.none

/-- The eight task-export caches after `parallel_lookups`: category is
keyed by the RAW id (see `fetch_category`); the others by `str(id)`;
the opportunity cache holds `(OPPORTUNITY_NAME, ORGANISATION_ID)`
pairs. -/
structure TaskCaches where
  category : List (PyVal × String)
  user : List (String × String)
  contact : List (String × String)
  lead : List (String × String)
  opportunity : List (String × (String × PyVal))
  organization : List (String × String)
  project : List (String × String)
  note : List (String × String)
deriving Repr

/-- The six `linked_*` accumulators of lines 230-247. -/
structure LinkedNames where
  contact : String
  lead : String
  opportunity : String
  organization : String
  project : String
  note : String
deriving DecidableEq, Repr

/-- The link-resolution loop (lines 231-247), folding over the links
in order; later links overwrite earlier ones of the same kind, and an
Opportunity link also fills the organisation from the opportunity's
own `ORGANISATION_ID` when truthy. -/
def resolveLinks (caches : TaskCaches) (acc : LinkedNames) :
    List TaskLink → LinkedNames
  | [] => acc
  | l :: rest =>
    let objId := pyStr l.objId
    let acc2 :=
      if l.objName = PyVal.str "Contact" then
        { acc with contact := pyGetD caches.contact objId "" }
      else if l.objName = PyVal.str "Lead" then
        { acc with lead := pyGetD caches.lead objId "" }
      else if l.objName = PyVal.str "Opportunity" then
        let pr := pyGetD caches.opportunity objId ("", PyVal.none)
        let acc3 := { acc with opportunity := pr.1 }
        if pyTruthy pr.2 then
          { acc3 with organization := pyGetD caches.organization (pyStr pr.2) "" }
        else acc3
      else if l.objName = PyVal.str "Organisation" then
        { acc with organization := pyGetD caches.organization objId "" }
      else if l.objName = PyVal.str "Project" then
        { acc with project := pyGetD caches.project objId "" }
      else if l.objName = PyVal.str "Note" then
        { acc with note := pyGetD caches.note objId "" }
      else acc
    resolveLinks caches acc2 rest

/-- `format_date_only` applied to a raw wire value, as the task rows
do: falsy values (absent field, `None`, `""`) yield `""`; strings are
parsed.  (A truthy non-string would raise `TypeError` in Python; no
task date field carries one, and no claim depends on that case, which
this typed embedding renders via `str()`.) -/
def formatDateOnlyPy (v : PyVal) : String :=
  if pyTruthy v then format_date_only (pyStr v) else ""

/-- One task export row (lines 249-268). -/
structure TaskRow where
  taskId : PyVal
  category : String
  status : PyVal
  percentComplete : PyVal
  priority : PyVal
  ownerName : String
  assignedTeam : PyVal
  dateAssigned : String
  dateCreated : String
  dateReminder : String
  dateDue : String
  dateCompleted : String
  linkedContact : String
  linkedLead : String
  linkedOpportunity : String
  linkedOrganization : String
  linkedProject : String
  linkedNote : String
deriving DecidableEq, Repr

/-- The row built for one task (lines 230-268). -/
def taskRow (caches : TaskCaches) (t : TaskRec) : TaskRow :=
  let ln := resolveLinks caches ⟨"", "", "", "", "", ""⟩ t.links
  { taskId := tget t "TASK_ID"
    category := pyGetD caches.category (tget t "CATEGORY_ID") ""
    status := tget t "STATUS"
    percentComplete := tget t "PERCENT_COMPLETE"
    priority := tget t "PRIORITY"
    ownerName := pyGetD caches.user (pyStr (tget t "OWNER_USER_ID")) ""
    assignedTeam := tget t "ASSIGNED_TEAM_ID"
    dateAssigned := formatDateOnlyPy (tget t "ASSIGNED_DATE_UTC")
    dateCreated := formatDateOnlyPy (tget t "DATE_CREATED_UTC")
    dateReminder := formatDateOnlyPy (tget t "REMINDER_DATE_UTC")
    dateDue := formatDateOnlyPy (tget t "DUE_DATE")
    dateCompleted := formatDateOnlyPy (tget t "COMPLETED_DATE_UTC")
    linkedContact := ln.contact
    linkedLead := ln.lead
    linkedOpportunity := ln.opportunity
    linkedOrganization := ln.organization
    linkedProject := ln.project
    linkedNote := ln.note }

/-- `main_task()` (modules/task.py lines 202-281) from the point where
the tasks have been fetched: the empty-primary short-circuit of lines
206-208, the row loop, and the export step of lines 271-281.
Components as in `main_opportunity`. -/
def main_task (caches : TaskCaches) (tasks : List TaskRec) :
    Option String × Option (List TaskRow) :=
  if tasks = [] then (Option.none, Option.none)
  else
    let rows := tasks.map (taskRow caches)
    if rows ≠ [] then
      (some "/tmp/Tasks.xlsx", some (drop_duplicates rows))
    else
      (Option.none, Option.none)

-- ==============================
--  Pager lemmas
-- ==============================

/-- Splitting off the first page: for `top ≤ n`,
`pageCount n top = pageCount (n - top) top + 1`. -/
theorem pageCount_sub (n top : Nat) (ht : 0 < top) (hn : top ≤ n) :
    pageCount n top = pageCount (n - top) top + 1 := by
  unfold pageCount
  rw [Nat.div_eq n top, Nat.mod_eq n top, if_pos (And.intro ht hn),
    if_pos (And.intro ht hn)]
  ring

/-- A collection of length `0 < n ≤ top` fits in a single page. -/
theorem pageCount_one (n top : Nat) (hn : 0 < n) (h : n ≤ top) :
    pageCount n top = 1 := by
  unfold pageCount
  rcases Nat.lt_or_ge n top with hlt | hge
  · rw [Nat.div_eq_of_lt hlt, Nat.mod_eq_of_lt hlt]
    have hne : n ≠ 0 := by omega
    simp [hne]
  · have heq : n = top := Nat.le_antisymm h hge
    subst heq
    rw [Nat.div_self hn, Nat.mod_self]
    simp

/-- Re-joining the per-page slices of a list recovers the list: the
page layout `skip = i * top, top = top` over `pageCount l.length top`
pages covers the collection exactly once. -/
theorem flatten_page_slices (top : Nat) (ht : 0 < top) :
    ∀ (n : Nat) (l : List α), l.length ≤ n →
      ((List.range (pageCount l.length top)).map
        (fun i => (l.drop (i * top)).take top)).flatten = l := by
  intro n
  induction n with
  | zero =>
    intro l hl
    have : l = [] := List.eq_nil_of_length_eq_zero (Nat.le_zero.mp hl)
    subst this
    simp [pageCount]
  | succ n ih =>
    intro l hl
    by_cases h0 : l.length = 0
    · have hnil : l = [] := List.eq_nil_of_length_eq_zero h0
      subst hnil
      simp [pageCount]
    · rcases Nat.lt_or_ge l.length top with hlt | hge
      · rw [pageCount_one l.length top (Nat.pos_of_ne_zero h0) (Nat.le_of_lt hlt)]
        have h1 : List.range 1 = [0] := rfl
        rw [h1]
        simp
        exact Nat.le_of_lt hlt
      · rw [pageCount_sub l.length top ht hge, List.range_succ_eq_map]
        have hdrop : ∀ i : Nat, l.drop ((i + 1) * top) = (l.drop top).drop (i * top) := by
          intro i
          rw [List.drop_drop]
          congr 1
          ring
        have hlen : (l.drop top).length = l.length - top := by
          simp
        calc ((0 :: (List.range (pageCount (l.length - top) top)).map (fun i => i + 1)).map
                (fun i => (l.drop (i * top)).take top)).flatten
            = (l.take top) ++ ((List.range (pageCount (l.length - top) top)).map
                (fun i => ((l.drop top).drop (i * top)).take top)).flatten := by
              simp only [List.map_cons, List.map_map, List.flatten_cons]
              congr 1
              · simp
              · congr 1
                apply List.map_congr_left
                intro i _
                simp only [Function.comp_apply]
                rw [hdrop i]
          _ = (l.take top) ++ (l.drop top) := by
              rw [← hlen, ih (l.drop top) (by rw [hlen]; omega)]
          _ = l := List.take_append_drop top l

/-- Peeling one backoff delay off the front of the delay list. -/
theorem pow_range_shift (attempt k : Nat) :
    (2 : Nat) ^ attempt :: (List.range k).map (fun i => 2 ^ (attempt + 1 + i)) =
      (List.range (k + 1)).map (fun i => 2 ^ (attempt + i)) := by
  rw [List.range_succ_eq_map, List.map_cons, List.map_map]
  refine congrArg₂ List.cons (by simp) ?_
  apply List.map_congr_left
  intro i _
  simp only [Function.comp_apply]
  congr 1
  omega

/-- Prefix lemma for the retry loop: if the first `k` attempts starting
at index `attempt` all fail with retryable network errors and the loop
still has more than `k` iterations left, the trace is `k` extra
attempts, the backoff delays `2^attempt, …, 2^(attempt+k-1)`, and then
whatever the loop does from attempt `attempt + k` on. -/
theorem safeGetAux_net_head (script : Nat → ReqOutcome) (k : Nat) :
    ∀ (attempt remaining : Nat), k < remaining →
      (∀ i, i < k → script (attempt + i) = ReqOutcome.netErr) →
      safeGetAux script attempt remaining =
        ⟨(safeGetAux script (attempt + k) (remaining - k)).attempts + k,
         (List.range k).map (fun i => 2 ^ (attempt + i)) ++
           (safeGetAux script (attempt + k) (remaining - k)).sleeps,
         (safeGetAux script (attempt + k) (remaining - k)).result⟩ := by
  induction k with
  | zero =>
    intro attempt remaining _ _
    simp
  | succ k ih =>
    intro attempt remaining hk hnet
    match remaining, hk with
    | r + 1, hk =>
      have h0 : script attempt = ReqOutcome.netErr := by
        have := hnet 0 (Nat.succ_pos k)
        simpa using this
      have hr : ¬r = 0 := by omega
      have hih := ih (attempt + 1) r (by omega)
        (fun i hi => by
          have := hnet (i + 1) (by omega)
          rw [← this]
          congr 1
          omega)
      simp only [safeGetAux, h0, if_neg hr, hih]
      have hshift : attempt + 1 + k = attempt + (k + 1) := by omega
      have hsub : r - k = r + 1 - (k + 1) := by omega
      rw [hshift, hsub]
      simp only [FetchTrace.mk.injEq]
      refine ⟨by omega, ?_, trivial⟩
      rw [← List.cons_append, pow_range_shift]

/-- Failed pages vanish from the merged result: joining the
`getD []`-defaults equals joining only the successful pages. -/
theorem flatten_getD_eq_filterMap (pages : Nat → Option (List α)) :
    ∀ r : List Nat,
      (r.map (fun i => (pages i).getD [])).flatten = (r.filterMap pages).flatten := by
  intro r
  induction r with
  | nil => rfl
  | cons a t ih =>
    rcases h : pages a with _ | l
    · simp [List.filterMap_cons, h, ih]
    · simp [List.filterMap_cons, h, ih]

/-- The geometric sum of the backoff delays. -/
theorem sum_pow_range (k : Nat) :
    ((List.range k).map (fun i => 2 ^ i)).sum = 2 ^ k - 1 := by
  induction k with
  | zero => rfl
  | succ k ih =>
    rw [List.range_succ, List.map_append, List.sum_append, ih]
    have h1 : (0 : Nat) < 2 ^ k := Nat.pos_pow_of_pos k (by omega)
    have h2 : (2 : Nat) ^ (k + 1) = 2 ^ k * 2 := pow_succ 2 k
    simp
    omega

-- ==============================
--  Claim theorems: fetch client and pager
-- ==============================

/-- C3: a fetch whose first `k` attempts fail with retryable network
errors makes exactly `k + 1` request attempts when attempt `k`
succeeds, the enforced delay before retry `i` is `2^i` seconds (the
delay list is `[2^0, …, 2^(k-1)]`, totalling `2^k - 1 = sum(2^i for i
in range(k))`); and when the final allowed attempt (`k = max_retries -
1`) also fails with a retryable error, `safe_get` returns an absent
result (`None`) instead of raising, after the same delays. -/
theorem fetch_retry_backoff (script : Nat → ReqOutcome) (k maxRetries : Nat)
    (hk : k < maxRetries) (hnet : ∀ i, i < k → script i = ReqOutcome.netErr) :
    (script k = ReqOutcome.ok →
      safe_get script maxRetries =
        ⟨k + 1, (List.range k).map (fun i => 2 ^ i), some ()⟩
      ∧ ((List.range k).map (fun i => 2 ^ i)).sum = 2 ^ k - 1)
    ∧ (script k = ReqOutcome.netErr → k + 1 = maxRetries →
      safe_get script maxRetries =
        ⟨k + 1, (List.range k).map (fun i => 2 ^ i), Option.none⟩) := by
  have hpre := safeGetAux_net_head script k 0 maxRetries hk
    (fun i hi => by simpa using hnet i hi)
  have h0k : (0 : Nat) + k = k := by omega
  rw [h0k] at hpre
  have hmap : (List.range k).map (fun i => 2 ^ (0 + i)) =
      (List.range k).map (fun i : Nat => 2 ^ i) := by
    apply List.map_congr_left
    intro i _
    congr 1
    omega
  rw [hmap] at hpre
  constructor
  · intro hok
    obtain ⟨m, hm⟩ : ∃ m, maxRetries - k = m + 1 := ⟨maxRetries - k - 1, by omega⟩
    rw [hm] at hpre
    have hinner : safeGetAux script k (m + 1) = ⟨1, [], some ()⟩ := by
      simp [safeGetAux, hok]
    refine ⟨?_, sum_pow_range k⟩
    show safeGetAux script 0 maxRetries = _
    rw [hpre, hinner]
    simp only [List.append_nil, FetchTrace.mk.injEq]
    exact ⟨by omega, trivial, trivial⟩
  · intro hlast hmax
    have hm : maxRetries - k = 1 := by omega
    rw [hm] at hpre
    have hinner : safeGetAux script k 1 = ⟨1, [], Option.none⟩ := by
      simp [safeGetAux, hlast]
    show safeGetAux script 0 maxRetries = _
    rw [hpre, hinner]
    simp only [List.append_nil, FetchTrace.mk.injEq]
    exact ⟨by omega, trivial, trivial⟩

/-- Witness for C3: two failures then a success under `max_retries = 5`
gives 3 attempts and delays `[1, 2]`; three failures under
`max_retries = 3` gives an absent result after delays `[1, 2]`. -/
theorem fetch_retry_backoff_witness :
    (safe_get (fun i => if i < 2 then ReqOutcome.netErr else ReqOutcome.ok) 5 =
      ⟨3, [1, 2], some ()⟩)
    ∧ (safe_get (fun _ => ReqOutcome.netErr) 3 =
      ⟨3, [1, 2], Option.none⟩) := by
  constructor
  · exact ((fetch_retry_backoff (fun i => if i < 2 then ReqOutcome.netErr else ReqOutcome.ok)
      2 5 (by omega) (fun i hi => by interval_cases i <;> rfl)).1 rfl).1
  · exact (fetch_retry_backoff (fun _ => ReqOutcome.netErr)
      2 3 (by omega) (fun i hi => rfl)).2 rfl rfl

/-- C5 counterexample: the `safe_get` variant in src/test.py (cited by
the claim) catches every `Exception`, so a well-formed HTTP 4xx/5xx
error response IS retried there: with `max_retries = 4` it makes 4
request attempts (not 1) and sleeps `[1, 2, 4]` before giving up. -/
theorem http_error_retried_cex :
    (test_safe_get (fun _ => ReqOutcome.httpErr) 4).attempts = 4
    ∧ (test_safe_get (fun _ => ReqOutcome.httpErr) 4).sleeps = [1, 2, 4]
    ∧ ¬(test_safe_get (fun _ => ReqOutcome.httpErr) 4).attempts = 1 := by
  decide

/-- C5 amended: in the per-domain fetch clients (modules/*.py), an HTTP
error response at attempt `k` is terminal: the call stops at `k + 1`
total attempts, enforces no further delay, and returns an absent
result. -/
theorem http_error_no_retry (script : Nat → ReqOutcome) (k maxRetries : Nat)
    (hk : k < maxRetries) (hnet : ∀ i, i < k → script i = ReqOutcome.netErr)
    (hhttp : script k = ReqOutcome.httpErr) :
    safe_get script maxRetries =
      ⟨k + 1, (List.range k).map (fun i => 2 ^ i), Option.none⟩ := by
  have hpre := safeGetAux_net_head script k 0 maxRetries hk
    (fun i hi => by simpa using hnet i hi)
  have h0k : (0 : Nat) + k = k := by omega
  rw [h0k] at hpre
  have hmap : (List.range k).map (fun i => 2 ^ (0 + i)) =
      (List.range k).map (fun i : Nat => 2 ^ i) := by
    apply List.map_congr_left
    intro i _
    congr 1
    omega
  rw [hmap] at hpre
  obtain ⟨m, hm⟩ : ∃ m, maxRetries - k = m + 1 := ⟨maxRetries - k - 1, by omega⟩
  rw [hm] at hpre
  have hinner : safeGetAux script k (m + 1) = ⟨1, [], Option.none⟩ := by
    simp [safeGetAux, hhttp]
  show safeGetAux script 0 maxRetries = _
  rw [hpre, hinner]
  simp only [List.append_nil, FetchTrace.mk.injEq]
  exact ⟨by omega, trivial, trivial⟩

/-- Witness for the amended C5: one network failure, then an HTTP error
on attempt 1, under `max_retries = 5`: two attempts total, one backoff
delay, absent result. -/
theorem http_error_no_retry_witness :
    safe_get (fun i => if i = 0 then ReqOutcome.netErr else ReqOutcome.httpErr) 5 =
      ⟨2, [1], Option.none⟩ :=
  http_error_no_retry _ 1 5 (by omega)
    (fun i hi => by interval_cases i; rfl) rfl

/-- C2: for a probe reporting total count `T = data.length ≥ 1` with
page size 500 and no failing page (each page `i` answering the slice
`data[i*500 : i*500+500]`), `fetch_all_paged` issues exactly
`ceil(T / 500)` page requests with skip values `0, 500, 1000, …` and
returns the union of all page payloads, i.e. `data` itself, of length
`T`. -/
theorem pager_pagination_complete (data : List α) (pages : Nat → Option (List α))
    (hne : data ≠ [])
    (hpages : ∀ i, pages i = some ((data.drop (i * 500)).take 500)) :
    fetch_all_paged (some data.length) pages 500 =
      ⟨(List.range (pageCount data.length 500)).map (fun i => i * 500), data⟩
    ∧ pageCount data.length 500 = (data.length + 499) / 500 := by
  have hlen0 : ¬data.length = 0 := by
    intro h
    exact hne (List.eq_nil_of_length_eq_zero h)
  constructor
  · have hmap : (List.range (pageCount data.length 500)).map (fun i => (pages i).getD []) =
        (List.range (pageCount data.length 500)).map
          (fun i => (data.drop (i * 500)).take 500) := by
      apply List.map_congr_left
      intro i _
      rw [hpages i]
      rfl
    simp only [fetch_all_paged, if_neg hlen0, hmap, PagerResult.mk.injEq]
    exact ⟨trivial, flatten_page_slices 500 (by omega) data.length data (Nat.le_refl _)⟩
  · unfold pageCount
    split <;> omega

/-- Witness for C2 at a one-page collection. -/
theorem pager_pagination_complete_witness :
    fetch_all_paged (some ([7, 8, 9] : List Nat).length)
      (fun i => some ((([7, 8, 9] : List Nat).drop (i * 500)).take 500)) 500 =
      ⟨[0], [7, 8, 9]⟩ := by
  have h := (pager_pagination_complete ([7, 8, 9] : List Nat)
    (fun i => some ((([7, 8, 9] : List Nat).drop (i * 500)).take 500))
    (by simp) (fun i => rfl)).1
  exact h

/-- C4: the pager never raises.  A failed probe yields the empty
result with no page requests, and a page whose fetch failed (absent
result) contributes zero records while every successful page's payload
is still merged in, in page order: the merged records equal the join
of just the successful pages. -/
theorem pager_partial_failure_tolerance (pages : Nat → Option (List α))
    (totalCount top : Nat) :
    fetch_all_paged Option.none pages top = ⟨[], []⟩
    ∧ (fetch_all_paged (some totalCount) pages top).records =
        ((List.range (pageCount totalCount top)).filterMap pages).flatten := by
  constructor
  · rfl
  · by_cases h : totalCount = 0
    · subst h
      simp [fetch_all_paged, pageCount]
    · simp only [fetch_all_paged, if_neg h]
      exact flatten_getD_eq_filterMap pages _

theorem splitCharAux_ne_nil (sep : Char) : ∀ l : List Char, splitCharAux sep l ≠ [] := by
  intro l
  induction l with
  | nil => simp [splitCharAux]
  | cons c cs ih =>
    by_cases h : c = sep
    · simp [splitCharAux, h]
    · simp only [splitCharAux, if_neg h]
      match hs : splitCharAux sep cs with
      | [] => exact absurd hs ih
      | x :: t => simp

/-- A list that contains the separator splits into at least two
segments. -/
theorem splitCharAux_sep_length (sep : Char) :
    ∀ (a b : List Char), 2 ≤ (splitCharAux sep (a ++ sep :: b)).length := by
  intro a
  induction a with
  | nil =>
    intro b
    have h2 : 0 < (splitCharAux sep b).length :=
      List.length_pos.mpr (splitCharAux_ne_nil sep b)
    simp [splitCharAux]
    omega
  | cons c cs ih =>
    intro b
    by_cases h : c = sep
    · have h2 : 0 < (splitCharAux sep (cs ++ sep :: b)).length :=
        List.length_pos.mpr (splitCharAux_ne_nil sep _)
      rw [List.cons_append, splitCharAux, if_pos h, List.length_cons]
      omega
    · simp only [List.cons_append, splitCharAux, if_neg h]
      match hs : splitCharAux sep (cs ++ sep :: b) with
      | [] => exact absurd hs (splitCharAux_ne_nil sep _)
      | x :: t =>
        have := ih b
        rw [hs] at this
        simpa using this

/-- The dedup loop emits no pair that was already in `seen`, and emits
each pair at most once. -/
theorem dedupByPair_nodup (invs : List InvRow) :
    ∀ seen : List (PyVal × PyVal),
      (∀ inv ∈ dedupByPair seen invs, (inv.invoiceNum, inv.poNum) ∉ seen)
      ∧ ((dedupByPair seen invs).map
          (fun inv => (inv.invoiceNum, inv.poNum))).Nodup := by
  induction invs with
  | nil =>
    intro seen
    simp [dedupByPair]
  | cons inv rest ih =>
    intro seen
    by_cases h : (inv.invoiceNum, inv.poNum) ∈ seen
    · simp only [dedupByPair, if_pos h]
      exact ih seen
    · simp only [dedupByPair, if_neg h]
      have hrec := ih ((inv.invoiceNum, inv.poNum) :: seen)
      constructor
      · intro x hx
        rcases List.mem_cons.mp hx with heq | hmem
        · subst heq
          exact h
        · intro hxs
          exact hrec.1 x hmem (List.mem_cons_of_mem _ hxs)
      · rw [List.map_cons, List.nodup_cons]
        constructor
        · intro hmem
          rcases List.mem_map.mp hmem with ⟨y, hy, hkey⟩
          exact hrec.1 y hy (by rw [hkey]; exact List.mem_cons_self _ _)
        · exact hrec.2

-- ==============================
--  Claim theorems: lookups, owner name, invoice dedup
-- ==============================

/-- C7: the matched-invoice list used for row building — collected
over all SKUs of the record, then deduplicated — contains at most one
entry per distinct `(Invoice_Num__c, PO_Number__c)` pair, whatever the
invoice lookup and SKU list (in particular when one invoice reference
is matched through several SKUs). -/
theorem invoice_list_dedup (invoiceLookup : List (String × List InvRow))
    (skus : List String) :
    ((unique_invoices (collectInvoices invoiceLookup skus)).map
      (fun inv => (inv.invoiceNum, inv.poNum))).Nodup :=
  (dedupByPair_nodup (collectInvoices invoiceLookup skus) []).2

/-- C6 counterexample: the task-export category cache keeps the RAW
identifier as key on both the build side (`fetch_category`, lines
88-92 of task.py) and the probe side (line 251), so a category id that
arrives as the number `123` is found under `PyVal.int 123` but missed
under its string representation `"123"`: the claimed both-sides
string normalization does not hold for every lookup table. -/
theorem lookup_id_normalization_cex :
    categoryProbe (fetch_category "Call" [] (PyVal.int 123)) (PyVal.int 123) = "Call"
    ∧ categoryProbe (fetch_category "Call" [] (PyVal.int 123)) (PyVal.str "123") = ""
    ∧ (fetch_category "Call" [] (PyVal.int 123)).map (fun p => p.1) = [PyVal.int 123] := by
  decide

/-- C6 amended: in the opportunity export every lookup table is keyed
by `str()` of the id and every probe applies `str(… or "")`, so for a
truthy identifier whose string form is nonempty the probe result is
the same whether the id arrives as a number or as its string
representation.  (The task-export category cache, and falsy ids — `0`,
`""` — which the `or ""` guard collapses to the empty key, are the
exceptions recorded in the counterexample.) -/
theorem lookup_id_normalization (orgs : List OrgRec) (users : List UserRec)
    (v : PyVal) (hv : pyTruthy v = true) (hs : pyStr v ≠ "") :
    orgProbe orgs v = orgProbe orgs (PyVal.str (pyStr v))
    ∧ userProbe users v = userProbe users (PyVal.str (pyStr v)) := by
  have h1 : pyStrOrBlank v = pyStr v := by
    simp [pyStrOrBlank, hv]
  have h2 : pyStrOrBlank (PyVal.str (pyStr v)) = pyStr v := by
    have h3 : pyStr (PyVal.str (pyStr v)) = pyStr v := rfl
    simp [pyStrOrBlank, pyTruthy, hs, h3]
  constructor
  · simp [orgProbe, h1, h2]
  · simp [userProbe, h1, h2]

/-- A string with the separator spliced in splits into at least two
segments. -/
theorem pySplit_append_sep (a b : String) :
    2 ≤ (pySplit (a ++ ";" ++ b) ';').length := by
  unfold pySplit
  rw [List.length_map]
  have h : (a ++ ";" ++ b).toList = a.toList ++ ';' :: b.toList := by
    show (a ++ ";" ++ b).data = a.data ++ ';' :: b.data
    rw [String.data_append, String.data_append, List.append_assoc]
    rfl
  rw [h]
  exact splitCharAux_sep_length ';' a.toList b.toList

/-- Lists of length at least two have a second element. -/
theorem getElem1_isSome_of_two_le (l : List String) (hlen : 2 ≤ l.length) :
    (l[1]?).isSome = true := by
  cases l with
  | nil => simp at hlen
  | cons x t =>
    cases t with
    | nil => simp at hlen
    | cons y t2 => simp

/-- C10: every value of the users lookup table has the shape
`"<USER_ID>;<first> <last>"`, hence splits on `";"` into at least two
segments; consequently the `Owner Name` computation of `base_row` —
`users.get(owner_id, "").split(";")[1] if users.get(owner_id) else ""`
— always yields a value and never hits the modelled `IndexError`. -/
theorem owner_name_wellformed (rs : List UserRec) (ownerId : String) :
    (∀ p ∈ usersLookup rs, 2 ≤ (pySplit p.2 ';').length)
    ∧ (ownerName? (usersLookup rs) ownerId).isSome = true := by
  have hval : ∀ p ∈ usersLookup rs, 2 ≤ (pySplit p.2 ';').length := by
    intro p hp
    rcases List.mem_map.mp hp with ⟨u, _, hu⟩
    rw [← hu]
    show 2 ≤ (pySplit (pyStr u.userId ++ ";" ++ pyStr u.firstName
      ++ " " ++ pyStr u.lastName) ';').length
    have hassoc : pyStr u.userId ++ ";" ++ pyStr u.firstName ++ " " ++ pyStr u.lastName
        = pyStr u.userId ++ ";" ++ (pyStr u.firstName ++ " " ++ pyStr u.lastName) := by
      simp [String.append_assoc]
    rw [hassoc]
    exact pySplit_append_sep _ _
  refine ⟨hval, ?_⟩
  unfold ownerName?
  by_cases hg : pyTruthy (PyVal.str (pyGetD (usersLookup rs) ownerId "")) = true
  · rw [if_pos hg]
    have hne : pyGetD (usersLookup rs) ownerId "" ≠ "" := by
      simpa [pyTruthy] using hg
    cases hfind : pyGet? (usersLookup rs) ownerId with
    | none =>
      exfalso
      apply hne
      simp [pyGetD, hfind]
    | some s =>
      have hsval : pyGetD (usersLookup rs) ownerId "" = s := by
        simp [pyGetD, hfind]
      rw [hsval]
      have hmem : ∃ p ∈ usersLookup rs, p.2 = s := by
        unfold pyGet? at hfind
        cases hmap : (usersLookup rs).reverse.find? (fun p => p.1 == ownerId) with
        | none => rw [hmap] at hfind; simp at hfind
        | some p =>
          rw [hmap] at hfind
          simp at hfind
          exact ⟨p, List.mem_reverse.mp (List.mem_of_find?_eq_some hmap), hfind⟩
      rcases hmem with ⟨p, hp, hps⟩
      have hlen := hval p hp
      rw [hps] at hlen
      exact getElem1_isSome_of_two_le _ hlen
  · rw [if_neg hg]
    rfl

/-- Witness for C10 on a one-user table. -/
theorem owner_name_wellformed_witness :
    2 ≤ (pySplit ("7;A B" : String) ';').length
    ∧ (ownerName? (usersLookup [⟨PyVal.int 7, PyVal.str "A", PyVal.str "B"⟩]) "7").isSome
      = true := by
  constructor
  · exact (owner_name_wellformed [⟨PyVal.int 7, PyVal.str "A", PyVal.str "B"⟩] "7").1
      ("7", "7;A B") (by decide)
  · exact (owner_name_wellformed [⟨PyVal.int 7, PyVal.str "A", PyVal.str "B"⟩] "7").2

/-- Witness for the amended C6: id `123` as number and as string hit
the same entry of a one-organisation table and of a one-user table. -/
theorem lookup_id_normalization_witness :
    orgProbe [⟨PyVal.int 123, "Acme"⟩] (PyVal.int 123) =
      orgProbe [⟨PyVal.int 123, "Acme"⟩] (PyVal.str (pyStr (PyVal.int 123)))
    ∧ userProbe [⟨PyVal.int 123, PyVal.str "Ada", PyVal.str "L"⟩] (PyVal.int 123) =
      userProbe [⟨PyVal.int 123, PyVal.str "Ada", PyVal.str "L"⟩]
        (PyVal.str (pyStr (PyVal.int 123))) :=
  lookup_id_normalization [⟨PyVal.int 123, "Acme"⟩]
    [⟨PyVal.int 123, PyVal.str "Ada", PyVal.str "L"⟩]
    (PyVal.int 123) (by decide) (by decide)

-- ==============================
--  Date lemmas
-- ==============================

/-- A maximal digit run followed by a non-digit delimiter spans
exactly the run. -/
theorem span_digits_append (c : Char) (hc : c.isDigit = false) :
    ∀ (a b : List Char), (∀ x ∈ a, x.isDigit = true) →
      (a ++ c :: b).takeWhile Char.isDigit = a
      ∧ (a ++ c :: b).dropWhile Char.isDigit = c :: b := by
  intro a
  induction a with
  | nil =>
    intro b _
    simp [List.takeWhile_cons, List.dropWhile_cons, hc]
  | cons x t ih =>
    intro b ha
    have hx : x.isDigit = true := ha x (List.mem_cons_self _ _)
    have ht := ih b (fun z hz => ha z (List.mem_cons_of_mem _ hz))
    simp [List.takeWhile_cons, List.dropWhile_cons, hx, ht.1, ht.2]

/-- A list of digits spans whole. -/
theorem span_digits_all :
    ∀ a : List Char, (∀ x ∈ a, x.isDigit = true) →
      a.takeWhile Char.isDigit = a ∧ a.dropWhile Char.isDigit = [] := by
  intro a
  induction a with
  | nil => intro _; simp
  | cons x t ih =>
    intro ha
    have hx : x.isDigit = true := ha x (List.mem_cons_self _ _)
    have ht := ih (fun z hz => ha z (List.mem_cons_of_mem _ hz))
    simp [List.takeWhile_cons, List.dropWhile_cons, hx, ht.1, ht.2]

/-- The decimal digit characters are digits. -/
theorem digitChar_isDigit (k : Nat) (hk : k ≤ 9) : (digitChar k).isDigit = true := by
  interval_cases k <;> decide

/-- Their numeric value round-trips. -/
theorem digitChar_val (k : Nat) (hk : k ≤ 9) : (digitChar k).toNat - 48 = k := by
  interval_cases k <;> decide

/-- All characters of a two-digit rendering are digits. -/
theorem pad2chars_digits (n : Nat) (hn : n ≤ 99) :
    ∀ x ∈ pad2chars n, x.isDigit = true := by
  intro x hx
  simp only [pad2chars, List.mem_cons, List.not_mem_nil, or_false] at hx
  rcases hx with h | h
  · exact h ▸ digitChar_isDigit (n / 10) (by omega)
  · exact h ▸ digitChar_isDigit (n % 10) (by omega)

/-- All characters of a four-digit rendering are digits. -/
theorem pad4chars_digits (n : Nat) (hn : n ≤ 9999) :
    ∀ x ∈ pad4chars n, x.isDigit = true := by
  intro x hx
  simp only [pad4chars, List.mem_cons, List.not_mem_nil, or_false] at hx
  rcases hx with h | h | h | h
  · exact h ▸ digitChar_isDigit (n / 1000) (by omega)
  · exact h ▸ digitChar_isDigit (n / 100 % 10) (by omega)
  · exact h ▸ digitChar_isDigit (n / 10 % 10) (by omega)
  · exact h ▸ digitChar_isDigit (n % 10) (by omega)

/-- Two-digit renderings evaluate back to their value. -/
theorem digitsVal_pad2 (n : Nat) (hn : n ≤ 99) : digitsVal (pad2chars n) = n := by
  unfold digitsVal pad2chars
  simp only [List.foldl_cons, List.foldl_nil]
  rw [digitChar_val (n / 10) (by omega), digitChar_val (n % 10) (by omega)]
  omega

/-- Four-digit renderings evaluate back to their value. -/
theorem digitsVal_pad4 (n : Nat) (hn : n ≤ 9999) : digitsVal (pad4chars n) = n := by
  unfold digitsVal pad4chars
  simp only [List.foldl_cons, List.foldl_nil]
  rw [digitChar_val (n / 1000) (by omega), digitChar_val (n / 100 % 10) (by omega),
    digitChar_val (n / 10 % 10) (by omega), digitChar_val (n % 10) (by omega)]
  omega

/-- Parsing a rendered two-digit field before a delimiter. -/
theorem parse_pad2_field (n : Nat) (hn : n ≤ 99) (lo hi : Nat)
    (hlo : lo ≤ n) (hhi : n ≤ hi) (c : Char) (hc : c.isDigit = false)
    (rest : List Char) :
    parseNumField (pad2chars n ++ c :: rest) 1 2 lo hi = some (n, c :: rest) := by
  unfold parseNumField
  have hspan := span_digits_append c hc (pad2chars n) rest (pad2chars_digits n hn)
  rw [hspan.1, hspan.2, digitsVal_pad2 n hn]
  rw [if_pos]
  constructor
  · show 1 ≤ (pad2chars n).length
    simp [pad2chars]
  · exact ⟨by simp [pad2chars], hlo, hhi⟩

/-- Parsing a rendered two-digit field at the end of the input. -/
theorem parse_pad2_last (n : Nat) (hn : n ≤ 99) (lo hi : Nat)
    (hlo : lo ≤ n) (hhi : n ≤ hi) :
    parseNumField (pad2chars n) 1 2 lo hi = some (n, []) := by
  unfold parseNumField
  have hspan := span_digits_all (pad2chars n) (pad2chars_digits n hn)
  rw [hspan.1, hspan.2, digitsVal_pad2 n hn]
  rw [if_pos]
  constructor
  · show 1 ≤ (pad2chars n).length
    simp [pad2chars]
  · exact ⟨by simp [pad2chars], hlo, hhi⟩

/-- Parsing the rendered four-digit year before a delimiter. -/
theorem parse_pad4_field (y : Nat) (h1 : 1 ≤ y) (h2 : y ≤ 9999)
    (c : Char) (hc : c.isDigit = false) (rest : List Char) :
    parseNumField (pad4chars y ++ c :: rest) 4 4 1 9999 = some (y, c :: rest) := by
  unfold parseNumField
  have hspan := span_digits_append c hc (pad4chars y) rest (pad4chars_digits y h2)
  rw [hspan.1, hspan.2, digitsVal_pad4 y h2]
  rw [if_pos]
  constructor
  · show 4 ≤ (pad4chars y).length
    simp [pad4chars]
  · exact ⟨by simp [pad4chars], h1, h2⟩

/-- Consuming a rendered delimiter. -/
theorem expectChar_cons (c : Char) (rest : List Char) :
    expectChar (c :: rest) c = some rest := by
  simp [expectChar]

/-- No month has more than 31 days. -/
theorem daysInMonth_le (y m : Nat) : daysInMonth y m ≤ 31 := by
  unfold daysInMonth
  split
  · split <;> omega
  · split <;> omega

/-- A rendered `YYYY-MM-DD HH:MM:SS` string with valid fields parses
back to its `(year, month, day)`. -/
theorem strptimeDateTime_render (y m d hh mi ss : Nat)
    (hy1 : 1 ≤ y) (hy : y ≤ 9999) (hm1 : 1 ≤ m) (hm : m ≤ 12)
    (hd1 : 1 ≤ d) (hd : d ≤ daysInMonth y m)
    (hhh : hh ≤ 23) (hmi : mi ≤ 59) (hss : ss ≤ 59) :
    strptimeDateTime (renderDateTime y m d hh mi ss) = some (y, m, d) := by
  have hd31 : d ≤ 31 := Nat.le_trans hd (daysInMonth_le y m)
  have htl : (renderDateTime y m d hh mi ss).toList
      = pad4chars y ++ '-' :: (pad2chars m ++ '-' :: (pad2chars d ++
        ' ' :: (pad2chars hh ++ ':' :: (pad2chars mi ++ ':' :: pad2chars ss)))) := rfl
  unfold strptimeDateTime
  rw [htl, parse_pad4_field y hy1 hy '-' (by decide) _]
  simp only [Option.bind_eq_bind, Option.some_bind]
  rw [expectChar_cons]
  simp only [Option.some_bind]
  rw [parse_pad2_field m (by omega) 1 12 hm1 hm '-' (by decide) _]
  simp only [Option.some_bind]
  rw [expectChar_cons]
  simp only [Option.some_bind]
  rw [parse_pad2_field d (by omega) 1 31 hd1 hd31 ' ' (by decide) _]
  simp only [Option.some_bind]
  rw [expectChar_cons]
  simp only [Option.some_bind]
  rw [parse_pad2_field hh (by omega) 0 23 (by omega) hhh ':' (by decide) _]
  simp only [Option.some_bind]
  rw [expectChar_cons]
  simp only [Option.some_bind]
  rw [parse_pad2_field mi (by omega) 0 59 (by omega) hmi ':' (by decide) _]
  simp only [Option.some_bind]
  rw [expectChar_cons]
  simp only [Option.some_bind]
  rw [parse_pad2_last ss (by omega) 0 59 (by omega) hss]
  simp only [Option.some_bind]
  simp [hd]

/-- Rendered date-time strings are nonempty. -/
theorem renderDateTime_ne_empty (y m d hh mi ss : Nat) :
    renderDateTime y m d hh mi ss ≠ "" := by
  intro h
  have h2 := congrArg String.data h
  simp [renderDateTime, pad4chars] at h2

-- ==============================
--  Claim theorems: dates, fan-out, empty input
-- ==============================

/-- C9 counterexample: the time part is NOT optional for
`format_date_only` — a bare `YYYY-MM-DD` string fails the strict
`"%Y-%m-%d %H:%M:%S"` parse and passes through unchanged instead of
formatting to `MM/DD/YYYY`. -/
theorem date_optional_time_cex :
    format_date_only "2022-09-23" = "2022-09-23"
    ∧ ¬format_date_only "2022-09-23" = "09/23/2022" := by
  decide

/-- C9 amended: `format_date_only` reformats exactly the full
`YYYY-MM-DD HH:MM:SS` source strings to `MM/DD/YYYY` (valid fields of
a rendered string round-trip); empty input yields the empty string and
any string the parse rejects is returned unchanged rather than
raising.  `format_date_ui` formats the date part before the first
space to `DD/MM/YYYY`, so there the time part IS optional; its
failures also pass through unchanged. -/
theorem date_reformatting (y m d hh mi ss : Nat)
    (hy1 : 1 ≤ y) (hy : y ≤ 9999) (hm1 : 1 ≤ m) (hm : m ≤ 12)
    (hd1 : 1 ≤ d) (hd : d ≤ daysInMonth y m)
    (hhh : hh ≤ 23) (hmi : mi ≤ 59) (hss : ss ≤ 59) :
    format_date_only (renderDateTime y m d hh mi ss)
      = pad2 m ++ "/" ++ pad2 d ++ "/" ++ toString y
    ∧ format_date_only "" = ""
    ∧ (∀ s, strptimeDateTime s = Option.none → format_date_only s = s)
    ∧ format_date_only "2022-09-23 03:42:25" = "09/23/2022"
    ∧ format_date_ui "2022-09-23 03:42:25" = "23/09/2022"
    ∧ format_date_ui "2022-09-23" = "23/09/2022"
    ∧ (∀ s, strptimeDate ((pySplit s ' ').headD "") = Option.none →
        format_date_ui s = s) := by
  refine ⟨?_, rfl, ?_, by decide, by decide, by decide, ?_⟩
  · unfold format_date_only
    rw [if_neg (renderDateTime_ne_empty y m d hh mi ss),
      strptimeDateTime_render y m d hh mi ss hy1 hy hm1 hm hd1 hd hhh hmi hss]
  · intro s hnone
    unfold format_date_only
    by_cases hs : s = ""
    · subst hs
      rfl
    · rw [if_neg hs, hnone]
  · intro s hnone
    unfold format_date_ui
    by_cases hs : s = ""
    · subst hs
      rfl
    · rw [if_neg hs, hnone]

/-- Witness for C9 at the spec's own example date. -/
theorem date_reformatting_witness :
    format_date_only (renderDateTime 2022 9 23 3 42 25) = "09/23/2022"
    ∧ format_date_only "" = "" := by
  have h := date_reformatting 2022 9 23 3 42 25 (by omega) (by omega) (by omega)
    (by omega) (by omega) (by decide) (by omega) (by omega) (by omega)
  exact ⟨h.1.trans (by decide), h.2.1⟩

/-- Flattening a map whose blocks all have length `c` multiplies. -/
theorem flatten_const_length (l : List β) (f : β → List γ) (c : Nat)
    (h : ∀ x ∈ l, (f x).length = c) :
    ((l.map f).flatten).length = l.length * c := by
  induction l with
  | nil => simp
  | cons a t ih =>
    simp only [List.map_cons, List.flatten_cons, List.length_append,
      List.length_cons, h a (List.mem_cons_self _ _),
      ih (fun x hx => h x (List.mem_cons_of_mem _ hx))]
    ring

/-- C1 counterexample: the fan-out is the PRODUCT of the two
one-to-many relations, not `N` rows per relation: a record with 3
linked products (`N = 3`) and 2 matched invoices (`N = 2`) yields 6
export rows — not 3 and not 2. -/
theorem fanout_cex :
    (buildRows (base_row ⟨[], [], [], [], [], []⟩ [] ⟨[], []⟩) ["p1", "p2", "p3"]
      [⟨PyVal.str "I1", PyVal.str "P1"⟩, ⟨PyVal.str "I2", PyVal.str "P2"⟩]).length = 6
    ∧ ¬(buildRows (base_row ⟨[], [], [], [], [], []⟩ [] ⟨[], []⟩) ["p1", "p2", "p3"]
      [⟨PyVal.str "I1", PyVal.str "P1"⟩, ⟨PyVal.str "I2", PyVal.str "P2"⟩]).length = 3
    ∧ ¬(buildRows (base_row ⟨[], [], [], [], [], []⟩ [] ⟨[], []⟩) ["p1", "p2", "p3"]
      [⟨PyVal.str "I1", PyVal.str "P1"⟩, ⟨PyVal.str "I2", PyVal.str "P2"⟩]).length = 2 := by
  have h : (buildRows (base_row ⟨[], [], [], [], [], []⟩ [] ⟨[], []⟩) ["p1", "p2", "p3"]
      [⟨PyVal.str "I1", PyVal.str "P1"⟩, ⟨PyVal.str "I2", PyVal.str "P2"⟩]).length = 6 := rfl
  exact ⟨h, by omega, by omega⟩

/-- C1 amended: for every record the fan-out emits
`max 1 (#invoices) * max 1 (#products)` rows — so exactly `N` rows
when one relation has `N ≥ 1` entries and the other is empty, and
exactly 1 row with blank sub-entity columns when both are empty — and
every emitted row agrees with every other on all non-sub-entity
columns (`coreOf`). -/
theorem fanout_rows (lk : Lookups) (siteLinks : List (String × List String))
    (opp : OppRec) (pids : List String) (invs : List InvRow) :
    (buildRows (base_row lk siteLinks opp) pids invs).length
      = max 1 invs.length * max 1 pids.length
    ∧ (∀ r ∈ buildRows (base_row lk siteLinks opp) pids invs,
        coreOf r = coreOf (base_row lk siteLinks opp "" (PyVal.str "") (PyVal.str "")))
    ∧ (pids = [] → invs = [] →
        buildRows (base_row lk siteLinks opp) pids invs
          = [base_row lk siteLinks opp "" (PyVal.str "") (PyVal.str "")]) := by
  have hcore : ∀ (p : String) (i o : PyVal),
      coreOf (base_row lk siteLinks opp p i o)
        = coreOf (base_row lk siteLinks opp "" (PyVal.str "") (PyVal.str "")) :=
    fun p i o => rfl
  refine ⟨?_, ?_, ?_⟩
  · unfold buildRows
    by_cases hinv : invs = []
    · subst hinv
      by_cases hp : pids = []
      · subst hp
        simp
      · simp only [ne_eq, not_true_eq_false, if_false, hp, not_false_eq_true, if_true,
          List.length_map]
        have h1 : 1 ≤ pids.length := List.length_pos.mpr hp
        simp
        omega
    · rw [if_pos hinv]
      have hlen := flatten_const_length invs
        (fun inv => if pids ≠ [] then
          pids.map (fun pid => base_row lk siteLinks opp pid inv.invoiceNum inv.poNum)
          else [base_row lk siteLinks opp "" inv.invoiceNum inv.poNum])
        (max 1 pids.length)
        (by
          intro inv _
          by_cases hp : pids = []
          · subst hp
            simp
          · have h1 : 1 ≤ pids.length := List.length_pos.mpr hp
            simp only [ne_eq, hp, not_false_eq_true, if_true, List.length_map]
            omega)
      rw [hlen]
      have h2 : 1 ≤ invs.length := List.length_pos.mpr hinv
      have h3 : max 1 invs.length = invs.length := by omega
      rw [h3]
  · intro r hr
    unfold buildRows at hr
    by_cases hinv : invs = []
    · subst hinv
      by_cases hp : pids = []
      · subst hp
        simp at hr
        rw [hr]
      · simp only [ne_eq, not_true_eq_false, if_false, hp, not_false_eq_true, if_true] at hr
        rcases List.mem_map.mp hr with ⟨pid, _, hpid⟩
        rw [← hpid]
        exact hcore _ _ _
    · rw [if_pos hinv] at hr
      rcases List.mem_flatten.mp hr with ⟨block, hblock, hrb⟩
      rcases List.mem_map.mp hblock with ⟨inv, _, hinv2⟩
      by_cases hp : pids = []
      · rw [← hinv2] at hrb
        simp only [ne_eq, hp, not_true_eq_false, if_false] at hrb
        simp at hrb
        rw [hrb]
        exact hcore _ _ _
      · rw [← hinv2] at hrb
        simp only [ne_eq, hp, not_false_eq_true, if_true] at hrb
        rcases List.mem_map.mp hrb with ⟨pid, _, hpid⟩
        rw [← hpid]
        exact hcore _ _ _
  · intro hp hinv
    subst hp
    subst hinv
    rfl

/-- Witness for the amended C1: one product, no invoices — one row,
whose non-sub-entity columns match the blank row's. -/
theorem fanout_rows_witness :
    (buildRows (base_row ⟨[], [], [], [], [], []⟩ [] ⟨[], []⟩) ["p1"] []).length
      = max 1 ([] : List InvRow).length * max 1 (["p1"] : List String).length
    ∧ coreOf (base_row ⟨[], [], [], [], [], []⟩ [] ⟨[], []⟩ "p1"
        (PyVal.str "") (PyVal.str ""))
      = coreOf (base_row ⟨[], [], [], [], [], []⟩ [] ⟨[], []⟩ ""
        (PyVal.str "") (PyVal.str "")) := by
  constructor
  · exact (fanout_rows ⟨[], [], [], [], [], []⟩ [] ⟨[], []⟩ ["p1"] []).1
  · exact (fanout_rows ⟨[], [], [], [], [], []⟩ [] ⟨[], []⟩ ["p1"] []).2.1
      (base_row ⟨[], [], [], [], [], []⟩ [] ⟨[], []⟩ "p1" (PyVal.str "") (PyVal.str ""))
      (by simp [buildRows])

/-- C8: with zero primary records, both export entry points return an
absent file path and never hand anything to the file-write
collaborator (second component `Option.none` = `to_excel` not
invoked). -/
theorem empty_input_short_circuit (lk : Lookups)
    (siteLinks : List (String × List String))
    (pidsMap skusMap : List (String × List String))
    (invLookup : List (String × List InvRow)) (caches : TaskCaches) :
    main_opportunity lk siteLinks pidsMap skusMap invLookup []
      = (Option.none, Option.none)
    ∧ main_task caches [] = (Option.none, Option.none) := by
  exact ⟨rfl, rfl⟩

end MagShield